import Mathlib

/-!
Verification of the PredictionMarkets repository core: fuzzy cross-venue
market matching, fee-aware arbitrage profit computation, the detection
orchestrator, the resilient fetch loop, the TTL cache, and the fallback
cascade.  Each TypeScript function is shallowly embedded as a computable
Lean definition; numbers are modelled as exact rationals, wall-clock
instants as integers passed explicitly, and JavaScript Set/Map values as
Finsets and lookup functions.
-/

/- Let concrete rational computations unfold during elaboration, so that
closed facts about the embedded functions can be settled by decide. -/
attribute [local semireducible] Rat.add Rat.sub Rat.mul Rat.inv

namespace PredictionMarkets

open scoped List

/- ============================================================
   Data model (src/src/models/market.ts)
   ============================================================ -/

inductive Platform
  | kalshi
  | polymarket
deriving DecidableEq

def platformName : Platform → String
  | .kalshi => "kalshi"
  | .polymarket => "polymarket"

/-- Calendar date as observed through getFullYear / getMonth / getDate. -/
structure DateD where
  year : Int
  month : Int
  day : Int
deriving DecidableEq

/-- The Market shape of MarketSchema.  Prices are rationals in place of JS
numbers; Dome-specific optional identifier fields are omitted since no
verified component reads them.  Optional fields default to none so that
concrete witnesses stay small. -/
structure Market where
  id : String
  platform : Platform
  ticker : String := ""
  title : String
  description : Option String := none
  category : Option String := none
  endDate : Option DateD := none
  yesPrice : ℚ
  noPrice : ℚ
  yesBid : Option ℚ := none
  yesAsk : Option ℚ := none
  noBid : Option ℚ := none
  noAsk : Option ℚ := none
  volume : Option ℚ := none
  liquidity : Option ℚ := none
  lastUpdated : Int := 0
deriving DecidableEq

structure MarketPair where
  kalshi : Option Market := none
  polymarket : Option Market := none
  matchConfidence : ℚ
  matchReason : String
deriving DecidableEq

/- ============================================================
   Identity normalizer and similarity scorer
   (src/src/arbitrage/matcher.ts; src/src/utils/fuzzy.ts has the
   same definitions, with an equivalent extra early return in
   calculateSimilarity)
   ============================================================ -/

/-- Whitespace as matched by the regex class backslash-s (ASCII model). -/
def isSpaceChar (c : Char) : Bool :=
  c = ' ' ∨ c = '\t' ∨ c = '\n' ∨ c = '\r'

/-- Characters kept by replace(/[^a-z0-9 whitespace]/g, ""). -/
def isKeptChar (c : Char) : Bool :=
  (97 ≤ c.toNat ∧ c.toNat ≤ 122) ∨ (48 ≤ c.toNat ∧ c.toNat ≤ 57) ∨ isSpaceChar c

/-- Split a character list into maximal runs of non-whitespace characters;
the accumulator holds the current word reversed. -/
def splitWords : List Char → List Char → List (List Char)
  | [], acc => if acc.isEmpty then [] else [acc.reverse]
  | c :: rest, acc =>
    if isSpaceChar c then
      if acc.isEmpty then splitWords rest [] else acc.reverse :: splitWords rest []
    else splitWords rest (c :: acc)

def normalizeWords (title : String) : List String :=
  (splitWords ((title.data.map Char.toLower).filter isKeptChar) []).map String.mk

/-- normalizeTitle: lowercase, strip characters outside [a-z0-9 whitespace],
collapse whitespace runs to single spaces, trim.  Collapsing then trimming
equals joining the whitespace-separated words with single spaces. -/
def normalizeTitle (title : String) : String :=
  String.intercalate " " (normalizeWords title)

/-- Inner loop of the levenshteinDistance dynamic program: extend the
current row across the columns of a.  At each column, diag is
matrix[i-1][j-1], left is matrix[i][j-1] and the head of prev is
matrix[i-1][j]. -/
def levNextRow (bc : Char) : List Char → List Nat → Nat → Nat → List Nat
  | [], _, _, _ => []
  | ac :: as, prev, diag, left =>
    let up := prev.headD 0
    let cur := if bc = ac then diag else Nat.min diag (Nat.min left up) + 1
    cur :: levNextRow bc as prev.tail up cur

/-- Outer loop over the characters of b: row i of the matrix holds the
distances of the length-i prefix of b to every prefix of a; each row
starts with matrix[i][0] = i. -/
def levRows (aChars : List Char) : List Char → List Nat → Nat → List Nat
  | [], row, _ => row
  | bc :: bs, row, i =>
    levRows aChars bs ((i + 1) :: levNextRow bc aChars row.tail (row.headD 0) (i + 1)) (i + 1)

/-- levenshteinDistance: the classic DP table; the first row is
[0, 1, ..., |a|] and the answer is matrix[|b|][|a|]. -/
def levenshteinDistance (a b : String) : Nat :=
  (levRows a.data b.data (List.range (a.data.length + 1)) 0).getD a.data.length 0

def calculateSimilarity (a b : String) : ℚ :=
  let normalizedA := normalizeTitle a
  let normalizedB := normalizeTitle b
  if normalizedA = normalizedB then 1
  else
    let distance := levenshteinDistance normalizedA normalizedB
    let maxLength := max normalizedA.length normalizedB.length
    if maxLength = 0 then 1
    else 1 - (distance : ℚ) / (maxLength : ℚ)

def stopWords : List String :=
  ["the", "a", "an", "is", "are", "will", "be", "to", "in", "on", "at",
   "for", "of", "by", "with", "if", "or", "and", "this", "that"]

/-- extractKeywords splits the normalized title on single spaces; since the
normalized title is exactly the single-space join of normalizeWords (and
splitting the empty string yields one empty token, which the length filter
drops), the split recovers normalizeWords. -/
def extractKeywords (title : String) : List String :=
  (normalizeWords title).filter
    (fun word => 2 < word.length ∧ ¬ stopWords.contains word)

/-- keywordOverlap; the JS Sets become Finsets. -/
def keywordOverlap (a b : String) : ℚ :=
  let keywordsA := (extractKeywords a).toFinset
  let keywordsB := (extractKeywords b).toFinset
  if keywordsA.card = 0 ∨ keywordsB.card = 0 then 0
  else ((keywordsA ∩ keywordsB).card : ℚ) / (min keywordsA.card keywordsB.card : ℚ)

def datesMatch : Option DateD → Option DateD → Bool
  | some dateA, some dateB =>
    dateA.year = dateB.year ∧ dateA.month = dateB.month ∧ dateA.day = dateB.day
  | _, _ => false

def toLowerStr (s : String) : String :=
  String.mk (s.data.map Char.toLower)

/-- The category term: both categories present and truthy (a JS empty string
is falsy) and equal case-insensitively scores 0.1. -/
def categoryBonus : Option String → Option String → ℚ
  | some ck, some cp => if ck ≠ "" ∧ cp ≠ "" ∧ toLowerStr ck = toLowerStr cp then (1/10 : ℚ) else 0
  | _, _ => 0

/-- The match confidence computed inside the matchMarkets inner loop. -/
def matchConfidence (kalshi poly : Market) : ℚ :=
  calculateSimilarity kalshi.title poly.title * (5/10 : ℚ)
    + keywordOverlap kalshi.title poly.title * (2/10 : ℚ)
    + (if datesMatch kalshi.endDate poly.endDate then (2/10 : ℚ) else 0)
    + categoryBonus kalshi.category poly.category

def matchReason (titleSimilarity keywordScore : ℚ) : String :=
  if titleSimilarity > (9/10 : ℚ) then "Exact title match"
  else if titleSimilarity > (7/10 : ℚ) then "Similar titles"
  else if keywordScore > (7/10 : ℚ) then "Keyword overlap"
  else "Multiple signals"

/- ============================================================
   Market matcher (matchMarkets)
   ============================================================ -/

structure MatchResult where
  kalshiMarket : Market
  polymarketMarket : Market
  confidence : ℚ
  reason : String
deriving DecidableEq

/-- One step of the inner loop over polymarket candidates. -/
def considerPoly (kalshi : Market) (claimed : List String)
    (best : Option MatchResult) (poly : Market) : Option MatchResult :=
  if claimed.contains poly.id then best
  else
    let titleSimilarity := calculateSimilarity kalshi.title poly.title
    let keywordScore := keywordOverlap kalshi.title poly.title
    let confidence := matchConfidence kalshi poly
    match best with
    | none =>
      if confidence > (6/10 : ℚ) then
        some ⟨kalshi, poly, confidence, matchReason titleSimilarity keywordScore⟩
      else none
    | some b =>
      if confidence > (6/10 : ℚ) ∧ confidence > b.confidence then
        some ⟨kalshi, poly, confidence, matchReason titleSimilarity keywordScore⟩
      else some b

def bestCandidate (kalshi : Market) (claimed : List String)
    (polys : List Market) : Option MatchResult :=
  polys.foldl (considerPoly kalshi claimed) none

/-- The MarketPair pushed for a successful best match. -/
def mkPair (bm : MatchResult) : MarketPair :=
  { kalshi := some bm.kalshiMarket,
    polymarket := some bm.polymarketMarket,
    matchConfidence := bm.confidence,
    matchReason := bm.reason }

/-- Stable insertion, descending by key, equal keys keep earlier-inserted
elements behind the incoming one only when strictly smaller: this is the
unique stable descending order produced by Array.prototype.sort with
comparator (a, b) => b.key - a.key. -/
def insertDescBy (key : α → ℚ) (a : α) : List α → List α
  | [] => [a]
  | x :: xs => if key x ≤ key a then a :: x :: xs else x :: insertDescBy key a xs

def sortDescBy (key : α → ℚ) (l : List α) : List α :=
  l.foldr (insertDescBy key) []

/-- The outer loop of matchMarkets: greedy over the kalshi list, claiming
matched polymarket ids. -/
def matchLoop (polys : List Market) :
    List Market → List String → List MarketPair → List MarketPair
  | [], _, pairs => pairs
  | kalshi :: rest, claimed, pairs =>
    match bestCandidate kalshi claimed polys with
    | none => matchLoop polys rest claimed pairs
    | some bm =>
      matchLoop polys rest (bm.polymarketMarket.id :: claimed) (pairs ++ [mkPair bm])

def matchMarkets (kalshiMarkets polymarketMarkets : List Market) : List MarketPair :=
  sortDescBy (fun p => p.matchConfidence) (matchLoop polymarketMarkets kalshiMarkets [] [])

/- ============================================================
   Profit calculator (src/src/arbitrage/calculator.ts chunk)
   ============================================================ -/

structure PlatformFees where
  takerFee : ℚ
  makerFee : ℚ
deriving DecidableEq

structure FeeStructure where
  kalshi : PlatformFees
  polymarket : PlatformFees
deriving DecidableEq

def DEFAULT_FEES : FeeStructure :=
  { kalshi := { takerFee := (7/100 : ℚ), makerFee := 0 },
    polymarket := { takerFee := (2/100 : ℚ), makerFee := 0 } }

inductive Side
  | yes
  | no
deriving DecidableEq

structure TradeLeg where
  platform : Platform
  side : Side
  price : ℚ
deriving DecidableEq

structure Trade where
  buy : TradeLeg
  sell : TradeLeg
deriving DecidableEq

structure ArbitrageOpportunity where
  id : String
  events : Market × Market
  trade : Trade
  profitMargin : ℚ
  requiredCapital : ℚ
  expectedProfit : ℚ
  confidence : ℚ
  detectedAt : Int
deriving DecidableEq

structure IntraMarketOpportunity where
  id : String
  market : Market
  yesPrice : ℚ
  noPrice : ℚ
  spread : ℚ
  profitMargin : ℚ
  detectedAt : Int
deriving DecidableEq

/-- calculateCrossMarketArbitrage.  The source fallback
polymarket.noPrice ?? 1 - polymarket.yesPrice never fires because noPrice
is a required MarketSchema field, so the embedding reads noPrice directly.
The ambient new Date() is the explicit now argument. -/
def calculateCrossMarketArbitrage (pair : MarketPair) (fees : FeeStructure)
    (now : Int) : Option ArbitrageOpportunity :=
  match pair.kalshi, pair.polymarket with
  | some kalshi, some polymarket =>
    let strategy1Cost := kalshi.yesAsk.getD kalshi.yesPrice + polymarket.noPrice
    let strategy1Fees := fees.kalshi.takerFee + fees.polymarket.takerFee
    let strategy1Profit := 1 - strategy1Cost - strategy1Fees
    let strategy2Cost := kalshi.noAsk.getD kalshi.noPrice + polymarket.yesPrice
    let strategy2Fees := fees.kalshi.takerFee + fees.polymarket.takerFee
    let strategy2Profit := 1 - strategy2Cost - strategy2Fees
    let choice : Option (Nat × ℚ) :=
      if strategy1Profit > 0 ∧ strategy1Profit ≥ strategy2Profit then some (1, strategy1Profit)
      else if strategy2Profit > 0 then some (2, strategy2Profit)
      else none
    match choice with
    | none => none
    | some (bestStrategy, profit) =>
      if profit ≤ (1/1000 : ℚ) then none
      else
        let requiredCapital : ℚ := 100
        some { id := "cross-" ++ kalshi.id ++ "-" ++ polymarket.id,
               events := (kalshi, polymarket),
               trade :=
                 if bestStrategy = 1 then
                   { buy := { platform := .kalshi, side := .yes,
                              price := kalshi.yesAsk.getD kalshi.yesPrice },
                     sell := { platform := .polymarket, side := .no,
                               price := polymarket.noPrice } }
                 else
                   { buy := { platform := .kalshi, side := .no,
                              price := kalshi.noAsk.getD kalshi.noPrice },
                     sell := { platform := .polymarket, side := .yes,
                               price := polymarket.yesPrice } },
               profitMargin := profit * 100,
               requiredCapital := requiredCapital,
               expectedProfit := profit * requiredCapital,
               confidence := pair.matchConfidence,
               detectedAt := now }
  | _, _ => none

def calculateIntraMarketArbitrage (market : Market) (fees : FeeStructure)
    (now : Int) : Option IntraMarketOpportunity :=
  let platformFees := match market.platform with
    | .kalshi => fees.kalshi
    | .polymarket => fees.polymarket
  let yesCost := market.yesAsk.getD market.yesPrice
  let noCost := market.noAsk.getD market.noPrice
  let totalCost := yesCost + noCost
  let totalFees := platformFees.takerFee * 2
  let spread := 1 - totalCost - totalFees
  if spread ≤ (1/1000 : ℚ) then none
  else
    some { id := "intra-" ++ platformName market.platform ++ "-" ++ market.id,
           market := market,
           yesPrice := yesCost,
           noPrice := noCost,
           spread := spread,
           profitMargin := spread * 100,
           detectedAt := now }

/-- sortByProfitMargin, shared by both opportunity kinds. -/
def sortByProfitMargin (key : α → ℚ) (opportunities : List α) : List α :=
  sortDescBy key opportunities

/- ============================================================
   Opportunity detector (ArbitrageDetector.detect)
   ============================================================ -/

structure DetectorConfig where
  minProfitMargin : ℚ
  minConfidence : ℚ
  fees : FeeStructure
deriving DecidableEq

def DEFAULT_CONFIG : DetectorConfig :=
  { minProfitMargin := (5/10 : ℚ), minConfidence := (6/10 : ℚ), fees := DEFAULT_FEES }

structure DetectionResult where
  crossMarket : List ArbitrageOpportunity
  intraMarket : List IntraMarketOpportunity
  totalOpportunities : Nat
  bestOpportunity : Option (Sum ArbitrageOpportunity IntraMarketOpportunity)
  detectedAt : Int
deriving DecidableEq

def detect (config : DetectorConfig) (kalshiMarkets polymarketMarkets : List Market)
    (now : Int) : DetectionResult :=
  let pairs := matchMarkets kalshiMarkets polymarketMarkets
  let crossMarket :=
    ((pairs.filter (fun pair => pair.matchConfidence ≥ config.minConfidence)).filterMap
        (fun pair => calculateCrossMarketArbitrage pair config.fees now)).filter
      (fun opp => opp.profitMargin ≥ config.minProfitMargin)
  let kalshiIntra :=
    (kalshiMarkets.filterMap
        (fun market => calculateIntraMarketArbitrage market config.fees now)).filter
      (fun opp => opp.profitMargin ≥ config.minProfitMargin)
  let polymarketIntra :=
    (polymarketMarkets.filterMap
        (fun market => calculateIntraMarketArbitrage market config.fees now)).filter
      (fun opp => opp.profitMargin ≥ config.minProfitMargin)
  let intraMarket := sortByProfitMargin (fun o => o.profitMargin) (kalshiIntra ++ polymarketIntra)
  let sortedCross := sortByProfitMargin (fun o => o.profitMargin) crossMarket
  let totalOpportunities := sortedCross.length + intraMarket.length
  let bestOpportunity : Option (Sum ArbitrageOpportunity IntraMarketOpportunity) :=
    match sortedCross, intraMarket with
    | c :: _, i :: _ => if c.profitMargin > i.profitMargin then some (.inl c) else some (.inr i)
    | c :: _, [] => some (.inl c)
    | [], i :: _ => some (.inr i)
    | [], [] => none
  { crossMarket := sortedCross,
    intraMarket := intraMarket,
    totalOpportunities := totalOpportunities,
    bestOpportunity := bestOpportunity,
    detectedAt := now }

/- ============================================================
   Named subexpressions of the calculator, used to state claims
   ============================================================ -/

def crossStrategy1Profit (kalshi polymarket : Market) (fees : FeeStructure) : ℚ :=
  1 - (kalshi.yesAsk.getD kalshi.yesPrice + polymarket.noPrice)
    - (fees.kalshi.takerFee + fees.polymarket.takerFee)

def crossStrategy2Profit (kalshi polymarket : Market) (fees : FeeStructure) : ℚ :=
  1 - (kalshi.noAsk.getD kalshi.noPrice + polymarket.yesPrice)
    - (fees.kalshi.takerFee + fees.polymarket.takerFee)

def crossTrade1 (kalshi polymarket : Market) : Trade :=
  { buy := { platform := .kalshi, side := .yes, price := kalshi.yesAsk.getD kalshi.yesPrice },
    sell := { platform := .polymarket, side := .no, price := polymarket.noPrice } }

def crossTrade2 (kalshi polymarket : Market) : Trade :=
  { buy := { platform := .kalshi, side := .no, price := kalshi.noAsk.getD kalshi.noPrice },
    sell := { platform := .polymarket, side := .yes, price := polymarket.yesPrice } }

def platformTakerFee (market : Market) (fees : FeeStructure) : ℚ :=
  (match market.platform with
    | .kalshi => fees.kalshi
    | .polymarket => fees.polymarket).takerFee

def intraSpread (market : Market) (fees : FeeStructure) : ℚ :=
  1 - (market.yesAsk.getD market.yesPrice + market.noAsk.getD market.noPrice)
    - platformTakerFee market fees * 2

/- ============================================================
   Timestamp scrubbing, to express what in a detection result
   depends on the ambient clock
   ============================================================ -/

def scrubCross (o : ArbitrageOpportunity) : ArbitrageOpportunity :=
  { o with detectedAt := 0 }

def scrubIntra (o : IntraMarketOpportunity) : IntraMarketOpportunity :=
  { o with detectedAt := 0 }

def scrubBest : Sum ArbitrageOpportunity IntraMarketOpportunity →
    Sum ArbitrageOpportunity IntraMarketOpportunity
  | .inl c => .inl (scrubCross c)
  | .inr i => .inr (scrubIntra i)

def scrubResult (r : DetectionResult) : DetectionResult :=
  { r with crossMarket := r.crossMarket.map scrubCross,
           intraMarket := r.intraMarket.map scrubIntra,
           bestOpportunity := r.bestOpportunity.map scrubBest,
           detectedAt := 0 }

/- Projections used to state the one-to-one property of the matcher. -/

def pairKalshiIds (pairs : List MarketPair) : List String :=
  pairs.filterMap (fun p => p.kalshi.map Market.id)

def pairPolyIds (pairs : List MarketPair) : List String :=
  pairs.filterMap (fun p => p.polymarket.map Market.id)

/- ============================================================
   Resilient data source (src/src/api/dome.ts, DomeClient.fetch)
   ============================================================ -/

/-- A JS Error as far as isRetryableError inspects it. -/
structure ErrorObj where
  name : String
  message : String
deriving DecidableEq

/-- What one fetch attempt observes: either a settled Response (ok flag,
status, statusText, already-read body text, already-parsed json payload)
or a thrown transport error. -/
inductive AttemptOutcome (α : Type)
  | response (ok : Bool) (status : Nat) (statusText : String) (bodyText : String) (payload : α)
  | failure (err : ErrorObj)
deriving DecidableEq

def isRetryableStatus (status : Nat) : Bool :=
  status = 408 ∨ status = 429 ∨ status ≥ 500

/-- List-infix test, modelling String.prototype.includes. -/
def containsSub (pat : List Char) : List Char → Bool
  | [] => pat.isEmpty
  | c :: rest => pat.isPrefixOf (c :: rest) || containsSub pat rest

def strIncludes (s pat : String) : Bool :=
  containsSub pat.data s.data

def isRetryableError (e : ErrorObj) : Bool :=
  e.name = "AbortError" ||
    (let message := toLowerStr e.message
     strIncludes message "timeout" || strIncludes message "timed out" ||
       strIncludes message "econnreset" || strIncludes message "eai_again" ||
       strIncludes message "enotfound")

def getBackoffDelay (attempt : Nat) (baseDelayMs : Int) (jitter : Int) : Int :=
  baseDelayMs * 2 ^ attempt + jitter

/-- The Error thrown for a non-ok response. -/
def statusError (status : Nat) (statusText bodyText : String) : ErrorObj :=
  { name := "Error",
    message := "Dome API error: " ++ toString status ++ " " ++ statusText ++ " - " ++ bodyText }

deriving instance DecidableEq for Except

/-- Result of one DomeClient.fetch call: the backoff delays slept, and the
returned payload or the surfaced error. -/
structure FetchRun (α : Type) where
  sleeps : List Int
  outcome : Except ErrorObj α
deriving DecidableEq

/-- The attempt loop of DomeClient.fetch.  The list holds the outcome each
attempt would observe, one entry per allowed attempt (retryAttempts + 1 in
the caller); the loop guard attempt <= retries corresponds to the list
being nonempty and attempt < retries to its tail being nonempty.  The
thrown non-retryable status Error is raised inside the try block, so the
catch block re-examines it with isRetryableError before surfacing it.  The
empty-list case is the unreachable post-loop throw. -/
def fetchAttempts (jitterAt : Nat → Int) (baseDelayMs : Int) :
    List (AttemptOutcome α) → Nat → FetchRun α
  | [], _ =>
    { sleeps := [],
      outcome := .error { name := "Error", message := "Dome API error: Request failed after retries" } }
  | outcome :: later, attempt =>
    let hasRetries := !later.isEmpty
    let retryFrom : Unit → FetchRun α := fun _ =>
      let rest := fetchAttempts jitterAt baseDelayMs later (attempt + 1)
      { sleeps := getBackoffDelay attempt baseDelayMs (jitterAt attempt) :: rest.sleeps,
        outcome := rest.outcome }
    match outcome with
    | .response ok status statusText bodyText payload =>
      if ok = false then
        if hasRetries && isRetryableStatus status then retryFrom ()
        else
          let err := statusError status statusText bodyText
          if hasRetries && isRetryableError err then retryFrom ()
          else { sleeps := [], outcome := .error err }
      else { sleeps := [], outcome := .ok payload }
    | .failure err =>
      if hasRetries && isRetryableError err then retryFrom ()
      else { sleeps := [], outcome := .error err }

def domeFetch (jitterAt : Nat → Int) (baseDelayMs : Int)
    (attempts : List (AttemptOutcome α)) : FetchRun α :=
  fetchAttempts jitterAt baseDelayMs attempts 0

/- ============================================================
   Cache layer (src/src/db/cache/manager.ts)
   ============================================================ -/

structure CacheEntryM where
  data : List Market
  timestamp : Int
  ttlMs : Int
deriving DecidableEq

structure CacheConfig where
  marketsTtlMs : Int
  snapshotsTtlMs : Int
  opportunitiesTtlMs : Int
deriving DecidableEq

inductive DataSource
  | api
  | cache
  | db
deriving DecidableEq

def isValidEntry (now : Int) : Option CacheEntryM → Bool
  | none => false
  | some entry => now - entry.timestamp < entry.ttlMs

/-- getAge; none models the JS Infinity returned for a missing entry. -/
def getAge : Option CacheEntryM → Int → Option Int
  | none, _ => none
  | some entry, now => some (now - entry.timestamp)

/-- Comparison age < bound under the Infinity model: Infinity < b is false. -/
def ageLt : Option Int → Int → Bool
  | none, _ => false
  | some a, b => a < b

structure FreshnessInfo where
  isStale : Bool
  ageMs : Option Int
  source : DataSource
deriving DecidableEq

def getMarketsFreshness (config : CacheConfig) (marketsCache : String → Option CacheEntryM)
    (now : Int) (platform : String) : FreshnessInfo :=
  let entry := marketsCache platform
  let ageMs := getAge entry now
  { isStale := ! isValidEntry now entry,
    ageMs := ageMs,
    source :=
      if ageLt ageMs 1000 then .api
      else if ageLt ageMs config.marketsTtlMs then .cache
      else .db }

def getCachedMarkets (marketsCache : String → Option CacheEntryM)
    (now : Int) (platform : String) : Option (List Market) :=
  match marketsCache platform with
  | some entry => if isValidEntry now (some entry) then some entry.data else none
  | none => none

/- ============================================================
   Fallback cascade (src/unnamed/part_001 markets store,
   fetchAllMarkets)
   ============================================================ -/

/-- The solid-js signals that fetchAllMarkets reads or writes.  The
dbConnected signal and the cache writes are only touched by the
fire-and-forget background persistence, which is asynchronous to the
refresh and therefore not part of this synchronous transition. -/
structure StoreState where
  kalshiMarkets : List Market
  polymarketMarkets : List Market
  loading : Bool
  error : Option String
  lastUpdated : Option Int
  kalshiConnected : Bool
  polymarketConnected : Bool
  domeConnected : Bool
  dataSource : DataSource
deriving DecidableEq

/-- The environment one fetchAllMarkets run interacts with: the markets
cache contents, what each platform live fetch settles to, and what the
durable store would deliver. -/
structure FetchEnv where
  marketsCache : String → Option CacheEntryM
  liveKalshi : Except String (List Market)
  livePoly : Except String (List Market)
  dbAvailable : Bool
  dbKalshi : Except String (List Market)
  dbPoly : Except String (List Market)

/-- loadMarketsFromDb: unavailable database or a repository error both
collapse to an empty list (the catch returns []). -/
def loadMarketsFromDb (dbAvailable : Bool) (repoResult : Except String (List Market)) :
    List Market :=
  if dbAvailable then
    match repoResult with
    | .ok markets => markets
    | .error _ => []
  else []

/-- fetchAllMarkets as a state transition.  now is the wall clock; the
await points do not reorder anything because the whole flow is a single
sequential async function. -/
def fetchAllMarkets (forceRefresh : Bool) (env : FetchEnv) (now : Int)
    (st : StoreState) : StoreState :=
  if st.loading then st
  else
    let st0 := { st with loading := true, error := none }
    let cached : Option (List Market × List Market) :=
      if forceRefresh then none
      else
        match getCachedMarkets env.marketsCache now "kalshi",
              getCachedMarkets env.marketsCache now "polymarket" with
        | some cachedKalshi, some cachedPoly => some (cachedKalshi, cachedPoly)
        | _, _ => none
    match cached with
    | some (cachedKalshi, cachedPoly) =>
      { st0 with kalshiMarkets := cachedKalshi, polymarketMarkets := cachedPoly,
                 kalshiConnected := true, polymarketConnected := true,
                 dataSource := .cache, lastUpdated := some now, loading := false }
    | none =>
      let kalshiLeg :=
        match env.liveKalshi with
        | .ok markets =>
          ({ st0 with kalshiMarkets := markets, kalshiConnected := true, dataSource := .api },
           true, (none : Option String))
        | .error msg =>
          let stf := { st0 with kalshiConnected := false }
          let dbMarkets := loadMarketsFromDb env.dbAvailable env.dbKalshi
          if dbMarkets.length > 0 then
            ({ stf with kalshiMarkets := dbMarkets, dataSource := .db }, true, some msg)
          else (stf, false, some msg)
      let st1 := kalshiLeg.1
      let polyLeg :=
        match env.livePoly with
        | .ok markets =>
          ({ st1 with polymarketMarkets := markets, polymarketConnected := true,
                      dataSource := .api },
           true, kalshiLeg.2.2)
        | .error msg =>
          let stf := { st1 with polymarketConnected := false }
          let dbMarkets := loadMarketsFromDb env.dbAvailable env.dbPoly
          if dbMarkets.length > 0 then
            ({ stf with polymarketMarkets := dbMarkets, dataSource := .db }, true, some msg)
          else (stf, kalshiLeg.2.1, some msg)
      let st2 := polyLeg.1
      if polyLeg.2.1 then
        { st2 with domeConnected := true, lastUpdated := some now, loading := false }
      else
        { st2 with error := some (polyLeg.2.2.getD "Failed to fetch markets"),
                   domeConnected := false, loading := false }

/- ============================================================
   Concrete data used by counterexamples and witnesses
   ============================================================ -/

def zeroFees : FeeStructure :=
  { kalshi := { takerFee := 0, makerFee := 0 },
    polymarket := { takerFee := 0, makerFee := 0 } }

/-- A config with zero fees and no margin floor, so that crafted examples
pass the detector filters. -/
def tieConfig : DetectorConfig :=
  { minProfitMargin := 0, minConfidence := 6/10, fees := zeroFees }

/-- Kalshi market priced so that cross strategy 1 profits 0.2 and its own
intra spread is 0. -/
def exK1 : Market :=
  { id := "k1", platform := .kalshi, title := "abc",
    yesPrice := 2/5, noPrice := 3/5, yesAsk := some (2/5), noAsk := some (3/5) }

/-- Kalshi market that matches nothing and carries an intra spread of 0.2,
tying the cross opportunity of exK1/exP1. -/
def exK3 : Market :=
  { id := "k3", platform := .kalshi, title := "zzz",
    yesPrice := 2/5, noPrice := 2/5, yesAsk := some (2/5), noAsk := some (2/5) }

/-- Polymarket market pairing with exK1 at confidence 0.7, intra spread 0. -/
def exP1 : Market :=
  { id := "p1", platform := .polymarket, title := "abc",
    yesPrice := 3/5, noPrice := 2/5 }

/-- Identical stop-word-only titles, equal dates, equal nonempty categories:
no extractable keyword, so the keyword term contributes 0. -/
def exThe1 : Market :=
  { id := "t1", platform := .kalshi, title := "the", category := some "x",
    endDate := some { year := 2025, month := 0, day := 5 }, yesPrice := 1/2, noPrice := 1/2 }

def exThe2 : Market :=
  { id := "t2", platform := .polymarket, title := "the", category := some "x",
    endDate := some { year := 2025, month := 0, day := 5 }, yesPrice := 1/2, noPrice := 1/2 }

/-- Identical keyword-bearing titles, equal dates, equal nonempty
categories up to case. -/
def exAbc1 : Market :=
  { id := "a1", platform := .kalshi, title := "abc", category := some "X",
    endDate := some { year := 2025, month := 0, day := 5 }, yesPrice := 1/2, noPrice := 1/2 }

def exAbc2 : Market :=
  { id := "a2", platform := .polymarket, title := "abc", category := some "x",
    endDate := some { year := 2025, month := 0, day := 5 }, yesPrice := 1/2, noPrice := 1/2 }

/-- Two kalshi markets sharing one id. -/
def exDupK1 : Market :=
  { id := "k", platform := .kalshi, title := "abc", yesPrice := 1/2, noPrice := 1/2 }

def exDupK2 : Market :=
  { id := "k", platform := .kalshi, title := "abc", yesPrice := 1/2, noPrice := 1/2 }

def exPA : Market :=
  { id := "pa", platform := .polymarket, title := "abc", yesPrice := 1/2, noPrice := 1/2 }

def exPB : Market :=
  { id := "pb", platform := .polymarket, title := "abc", yesPrice := 1/2, noPrice := 1/2 }

/-- The spec example: yesAsk 0.40 on kalshi, noPrice 0.45 on polymarket,
default fees 0.09 combined, strategy-1 profit 0.06. -/
def exC4K : Market :=
  { id := "ck", platform := .kalshi, title := "abc",
    yesPrice := 2/5, noPrice := 3/5, yesAsk := some (40/100), noAsk := some (60/100) }

def exC4P : Market :=
  { id := "cp", platform := .polymarket, title := "abc",
    yesPrice := 55/100, noPrice := 45/100 }

/-- yesPrice = noPrice = 0.5 with no asks: intra spread 0 at zero fees. -/
def halfMarket : Market :=
  { id := "h", platform := .kalshi, title := "half", yesPrice := 1/2, noPrice := 1/2 }

/-- The spec example yesAsk = noAsk = 0.46: spread 0.08 at zero fees. -/
def exC5M : Market :=
  { id := "m46", platform := .kalshi, title := "m46",
    yesPrice := 46/100, noPrice := 54/100, yesAsk := some (46/100), noAsk := some (46/100) }

/-- Attempt trace for the resilient fetch: a 404 whose body text contains
the word timeout, then a clean success. -/
def exC8Attempts : List (AttemptOutcome String) :=
  [.response false 404 "Not Found" "timeout" "IGNORED",
   .response true 200 "OK" "" "PAYLOAD"]

def zeroJitter : Nat → Int := fun _ => 0

/-- Markets held in the concrete cache and store fixtures. -/
def exCachedK : Market :=
  { id := "cachedk", platform := .kalshi, title := "cached", yesPrice := 1/2, noPrice := 1/2 }

def exLiveP : Market :=
  { id := "livep", platform := .polymarket, title := "live", yesPrice := 1/2, noPrice := 1/2 }

/-- A kalshi cache entry that is fresh at now = 100 (age 100 < ttl 30000). -/
def exFreshEntry : CacheEntryM :=
  { data := [exCachedK], timestamp := 0, ttlMs := 30000 }

/-- Environment of claim C2: the kalshi live fetch fails while a fresh
kalshi cache entry exists, the polymarket live fetch succeeds, and the
durable store is unavailable. -/
def exC2Env : FetchEnv :=
  { marketsCache := fun platform => if platform = "kalshi" then some exFreshEntry else none,
    liveKalshi := .error "boom",
    livePoly := .ok [exLiveP],
    dbAvailable := false,
    dbKalshi := .error "unavailable",
    dbPoly := .error "unavailable" }

/-- The cross-market opportunity detect finds for exK1/exP1 under
tieConfig. -/
def exCrossOpp : ArbitrageOpportunity :=
  { id := "cross-k1-p1",
    events := (exK1, exP1),
    trade := { buy := { platform := .kalshi, side := .yes, price := 2/5 },
               sell := { platform := .polymarket, side := .no, price := 2/5 } },
    profitMargin := 20,
    requiredCapital := 100,
    expectedProfit := 20,
    confidence := 7/10,
    detectedAt := 0 }

/-- The intra-market opportunity detect finds for exK3 under tieConfig. -/
def exIntraOpp : IntraMarketOpportunity :=
  { id := "intra-kalshi-k3",
    market := exK3,
    yesPrice := 2/5,
    noPrice := 2/5,
    spread := 1/5,
    profitMargin := 20,
    detectedAt := 0 }

/-- The default cache TTL configuration. -/
def exCacheConfig : CacheConfig :=
  { marketsTtlMs := 30000, snapshotsTtlMs := 10000, opportunitiesTtlMs := 5000 }

/-- The signal values before a refresh run. -/
def initialStore : StoreState :=
  { kalshiMarkets := [], polymarketMarkets := [], loading := false, error := none,
    lastUpdated := none, kalshiConnected := false, polymarketConnected := false,
    domeConnected := false, dataSource := .api }

/- ============================================================
   Theorems
   ============================================================ -/

/-- Case shape of the cross-market calculator on a pair with both markets
present. -/
theorem calcCross_cases (kalshi polymarket : Market) (conf : ℚ) (reason : String)
    (fees : FeeStructure) (now : Int) :
    calculateCrossMarketArbitrage
      { kalshi := some kalshi, polymarket := some polymarket,
        matchConfidence := conf, matchReason := reason } fees now =
    (if crossStrategy1Profit kalshi polymarket fees > 0 ∧
        crossStrategy1Profit kalshi polymarket fees ≥ crossStrategy2Profit kalshi polymarket fees then
       if crossStrategy1Profit kalshi polymarket fees ≤ 1/1000 then none
       else some { id := "cross-" ++ kalshi.id ++ "-" ++ polymarket.id,
                   events := (kalshi, polymarket),
                   trade := crossTrade1 kalshi polymarket,
                   profitMargin := crossStrategy1Profit kalshi polymarket fees * 100,
                   requiredCapital := 100,
                   expectedProfit := crossStrategy1Profit kalshi polymarket fees * 100,
                   confidence := conf,
                   detectedAt := now }
     else if crossStrategy2Profit kalshi polymarket fees > 0 then
       if crossStrategy2Profit kalshi polymarket fees ≤ 1/1000 then none
       else some { id := "cross-" ++ kalshi.id ++ "-" ++ polymarket.id,
                   events := (kalshi, polymarket),
                   trade := crossTrade2 kalshi polymarket,
                   profitMargin := crossStrategy2Profit kalshi polymarket fees * 100,
                   requiredCapital := 100,
                   expectedProfit := crossStrategy2Profit kalshi polymarket fees * 100,
                   confidence := conf,
                   detectedAt := now }
     else none) := by
  simp only [calculateCrossMarketArbitrage, crossStrategy1Profit, crossStrategy2Profit,
    crossTrade1, crossTrade2]
  split_ifs <;> simp <;> linarith

/-- C4: for a pair with both markets present, calculateCrossMarketArbitrage
evaluates strategy 1 profit 1 - (yesAsk(m1) or yesPrice + noPrice(m2)) -
(takerFee1 + takerFee2) and strategy 2 with NO on m1 and YES on m2, picks
the larger profit preferring strategy 1 on ties, returns none unless the
chosen profit exceeds 0.001, and otherwise fills profitMargin =
profit * 100, requiredCapital = 100, expectedProfit = profit *
requiredCapital and confidence = matchConfidence. -/
theorem c4_cross_calculator (kalshi polymarket : Market) (conf : ℚ) (reason : String)
    (fees : FeeStructure) (now : Int) :
    (max (crossStrategy1Profit kalshi polymarket fees) (crossStrategy2Profit kalshi polymarket fees)
        ≤ 1/1000 →
      calculateCrossMarketArbitrage
        { kalshi := some kalshi, polymarket := some polymarket,
          matchConfidence := conf, matchReason := reason } fees now = none) ∧
    (1/1000 <
        max (crossStrategy1Profit kalshi polymarket fees) (crossStrategy2Profit kalshi polymarket fees) →
      calculateCrossMarketArbitrage
        { kalshi := some kalshi, polymarket := some polymarket,
          matchConfidence := conf, matchReason := reason } fees now =
      some { id := "cross-" ++ kalshi.id ++ "-" ++ polymarket.id,
             events := (kalshi, polymarket),
             trade :=
               if crossStrategy2Profit kalshi polymarket fees ≤
                   crossStrategy1Profit kalshi polymarket fees
               then crossTrade1 kalshi polymarket
               else crossTrade2 kalshi polymarket,
             profitMargin :=
               max (crossStrategy1Profit kalshi polymarket fees)
                 (crossStrategy2Profit kalshi polymarket fees) * 100,
             requiredCapital := 100,
             expectedProfit :=
               max (crossStrategy1Profit kalshi polymarket fees)
                 (crossStrategy2Profit kalshi polymarket fees) * 100,
             confidence := conf,
             detectedAt := now }) := by
  have hshape := calcCross_cases kalshi polymarket conf reason fees now
  set s1 := crossStrategy1Profit kalshi polymarket fees with hs1def
  set s2 := crossStrategy2Profit kalshi polymarket fees with hs2def
  constructor
  · intro hle
    have h1 : s1 ≤ 1/1000 := le_trans (le_max_left _ _) hle
    have h2 : s2 ≤ 1/1000 := le_trans (le_max_right _ _) hle
    rw [hshape]
    split_ifs <;> rfl
  · intro hlt
    rw [hshape]
    rcases le_or_lt s2 s1 with hc | hc
    · have hmax : max s1 s2 = s1 := max_eq_left hc
      rw [hmax] at hlt ⊢
      rw [if_pos hc]
      rw [if_pos (⟨by linarith, hc⟩ : s1 > 0 ∧ s1 ≥ s2),
          if_neg (by linarith : ¬ s1 ≤ 1/1000)]
    · have hmax : max s1 s2 = s2 := max_eq_right hc.le
      rw [hmax] at hlt ⊢
      rw [if_neg (not_le.mpr hc)]
      have hA : ¬ (s1 > 0 ∧ s1 ≥ s2) := by
        rintro ⟨hpos, hge⟩
        linarith
      rw [if_neg hA, if_pos (by linarith : s2 > 0),
          if_neg (by linarith : ¬ s2 ≤ 1/1000)]

/-- Witness for C4 at the spec figures: kalshi yesAsk 0.40, polymarket
noPrice 0.45, default fees, strategy 1 selected with margin 6. -/
theorem c4_cross_calculator_witness :
    (1/1000 <
        max (crossStrategy1Profit exC4K exC4P DEFAULT_FEES)
          (crossStrategy2Profit exC4K exC4P DEFAULT_FEES)) ∧
    calculateCrossMarketArbitrage
      { kalshi := some exC4K, polymarket := some exC4P,
        matchConfidence := 7/10, matchReason := "Exact title match" } DEFAULT_FEES 0 =
    some { id := "cross-" ++ exC4K.id ++ "-" ++ exC4P.id,
           events := (exC4K, exC4P),
           trade :=
             if crossStrategy2Profit exC4K exC4P DEFAULT_FEES ≤
                 crossStrategy1Profit exC4K exC4P DEFAULT_FEES
             then crossTrade1 exC4K exC4P
             else crossTrade2 exC4K exC4P,
           profitMargin :=
             max (crossStrategy1Profit exC4K exC4P DEFAULT_FEES)
               (crossStrategy2Profit exC4K exC4P DEFAULT_FEES) * 100,
           requiredCapital := 100,
           expectedProfit :=
             max (crossStrategy1Profit exC4K exC4P DEFAULT_FEES)
               (crossStrategy2Profit exC4K exC4P DEFAULT_FEES) * 100,
           confidence := 7/10,
           detectedAt := 0 } :=
  ⟨by decide,
   (c4_cross_calculator exC4K exC4P (7/10) "Exact title match" DEFAULT_FEES 0).2 (by decide)⟩

/-- Case shape of the intra-market calculator. -/
theorem calcIntra_cases (market : Market) (fees : FeeStructure) (now : Int) :
    calculateIntraMarketArbitrage market fees now =
      if intraSpread market fees ≤ 1/1000 then none
      else some { id := "intra-" ++ platformName market.platform ++ "-" ++ market.id,
                  market := market,
                  yesPrice := market.yesAsk.getD market.yesPrice,
                  noPrice := market.noAsk.getD market.noPrice,
                  spread := intraSpread market fees,
                  profitMargin := intraSpread market fees * 100,
                  detectedAt := now } := rfl

/-- C5: calculateIntraMarketArbitrage computes spread = 1 - (yes cost + no
cost) - 2 fees with ask-to-mid fallback, rejects unless spread > 0.001,
fills profitMargin = spread * 100, and in particular the 0.5/0.5 market
with no asks and zero fees yields nothing. -/
theorem c5_intra_calculator (market : Market) (fees : FeeStructure) (now : Int) :
    (intraSpread market fees ≤ 1/1000 →
      calculateIntraMarketArbitrage market fees now = none) ∧
    (1/1000 < intraSpread market fees →
      calculateIntraMarketArbitrage market fees now =
        some { id := "intra-" ++ platformName market.platform ++ "-" ++ market.id,
               market := market,
               yesPrice := market.yesAsk.getD market.yesPrice,
               noPrice := market.noAsk.getD market.noPrice,
               spread := intraSpread market fees,
               profitMargin := intraSpread market fees * 100,
               detectedAt := now }) ∧
    calculateIntraMarketArbitrage halfMarket zeroFees now = none := by
  refine ⟨fun h => ?_, fun h => ?_, ?_⟩
  · rw [calcIntra_cases, if_pos h]
  · rw [calcIntra_cases, if_neg (not_le.mpr h)]
  · rw [calcIntra_cases,
      if_pos (show intraSpread halfMarket zeroFees ≤ 1/1000 by decide)]

/-- Witness for C5 at the spec figures: yesAsk = noAsk = 0.46, zero fees,
spread 0.08 and margin 8. -/
theorem c5_intra_calculator_witness :
    (1/1000 < intraSpread exC5M zeroFees) ∧
    calculateIntraMarketArbitrage exC5M zeroFees 0 =
      some { id := "intra-" ++ platformName exC5M.platform ++ "-" ++ exC5M.id,
             market := exC5M,
             yesPrice := exC5M.yesAsk.getD exC5M.yesPrice,
             noPrice := exC5M.noAsk.getD exC5M.noPrice,
             spread := intraSpread exC5M zeroFees,
             profitMargin := intraSpread exC5M zeroFees * 100,
             detectedAt := 0 } :=
  ⟨by decide, (c5_intra_calculator exC5M zeroFees 0).2.1 (by decide)⟩

/- Bounds on the Levenshtein dynamic program: every entry of row i at
column j is at most max i j. -/

theorem listGetD_tail (l : List Nat) (t : Nat) : l.tail.getD t 0 = l.getD (t + 1) 0 := by
  cases l <;> simp [List.getD]

theorem listHeadD_eq_getD (l : List Nat) : l.headD 0 = l.getD 0 0 := by
  cases l <;> rfl

theorem levCell_bound (bc ac : Char) (diag left up i j0 : Nat) (hi : 1 ≤ i) (hj0 : 1 ≤ j0)
    (hdiag : diag ≤ max (i - 1) (j0 - 1)) :
    (if bc = ac then diag else Nat.min diag (Nat.min left up) + 1) ≤ max i j0 := by
  by_cases hbc : bc = ac
  · simp only [if_pos hbc]
    omega
  · simp only [if_neg hbc]
    have h1 : Nat.min diag (Nat.min left up) ≤ diag := Nat.min_le_left _ _
    omega

theorem levNextRow_bound (bc : Char) :
    ∀ (as : List Char) (prev : List Nat) (diag left i j0 : Nat),
      1 ≤ i → 1 ≤ j0 →
      diag ≤ max (i - 1) (j0 - 1) →
      left ≤ max i (j0 - 1) →
      (∀ t, prev.getD t 0 ≤ max (i - 1) (j0 + t)) →
      ∀ t, (levNextRow bc as prev diag left).getD t 0 ≤ max i (j0 + t) := by
  intro as
  induction as with
  | nil =>
    intro prev diag left i j0 hi hj0 hdiag hleft hprev t
    simp only [levNextRow]
    have h0 : ([] : List Nat).getD t 0 = 0 := by simp [List.getD]
    rw [h0]
    omega
  | cons ac as ih =>
    intro prev diag left i j0 hi hj0 hdiag hleft hprev t
    have hup : prev.headD 0 ≤ max (i - 1) j0 := by
      rw [listHeadD_eq_getD]
      exact hprev 0
    have hcur : (if bc = ac then diag else Nat.min diag (Nat.min left (prev.headD 0)) + 1)
        ≤ max i j0 := levCell_bound bc ac diag left (prev.headD 0) i j0 hi hj0 hdiag
    cases t with
    | zero =>
      simp only [levNextRow, List.getD_cons_zero]
      exact hcur
    | succ t =>
      have hrec := ih prev.tail (prev.headD 0)
        (if bc = ac then diag else Nat.min diag (Nat.min left (prev.headD 0)) + 1)
        i (j0 + 1) hi (by omega)
        hup
        hcur
        (fun u => by
          rw [listGetD_tail]
          have e : j0 + 1 + u = j0 + (u + 1) := by omega
          rw [e]
          exact hprev (u + 1)) t
      have e : j0 + 1 + t = j0 + (t + 1) := by omega
      rw [e] at hrec
      simp only [levNextRow, List.getD_cons_succ]
      exact hrec

theorem levRows_bound (aChars : List Char) :
    ∀ (bs : List Char) (row : List Nat) (i : Nat),
      (∀ t, row.getD t 0 ≤ max i t) →
      ∀ t, (levRows aChars bs row i).getD t 0 ≤ max (i + bs.length) t := by
  intro bs
  induction bs with
  | nil =>
    intro row i hrow t
    simp only [levRows, List.length_nil, Nat.add_zero]
    exact hrow t
  | cons bc bs ih =>
    intro row i hrow t
    have hnew : ∀ u,
        ((i + 1) :: levNextRow bc aChars row.tail (row.headD 0) (i + 1)).getD u 0
          ≤ max (i + 1) u := by
      intro u
      cases u with
      | zero =>
        simp only [List.getD_cons_zero]
        omega
      | succ u =>
        have hrec := levNextRow_bound bc aChars row.tail (row.headD 0) (i + 1) (i + 1) 1
          (by omega) (by omega)
          (by rw [listHeadD_eq_getD]; exact hrow 0)
          (by omega)
          (fun v => by
            rw [listGetD_tail]
            have e : (1 : Nat) + v = v + 1 := by omega
            rw [e]
            exact hrow (v + 1)) u
        have e : (1 : Nat) + u = u + 1 := by omega
        rw [e] at hrec
        simp only [List.getD_cons_succ]
        exact hrec
    have hrec := ih ((i + 1) :: levNextRow bc aChars row.tail (row.headD 0) (i + 1)) (i + 1) hnew t
    have e : i + 1 + bs.length = i + (bs.length + 1) := by omega
    rw [e] at hrec
    simp only [levRows, List.length_cons]
    exact hrec

theorem rangeGetD_le (n t : Nat) : (List.range n).getD t 0 ≤ t := by
  rcases lt_or_ge t n with h | h
  · rw [List.getD_eq_getElem _ _ (by simpa using h)]
    simp
  · rw [List.getD_eq_default _ _ (by simpa using h)]
    exact Nat.zero_le t

theorem levenshteinDistance_le (a b : String) :
    levenshteinDistance a b ≤ max a.length b.length := by
  unfold levenshteinDistance
  have hinit : ∀ t, (List.range (a.data.length + 1)).getD t 0 ≤ max 0 t := by
    intro t
    have := rangeGetD_le (a.data.length + 1) t
    omega
  have hfin := levRows_bound a.data b.data (List.range (a.data.length + 1)) 0 hinit a.data.length
  have hlen : a.length = a.data.length := rfl
  have hlenb : b.length = b.data.length := rfl
  rw [hlen, hlenb]
  omega

theorem calculateSimilarity_mem (a b : String) :
    0 ≤ calculateSimilarity a b ∧ calculateSimilarity a b ≤ 1 := by
  unfold calculateSimilarity
  dsimp only
  split_ifs with h1 h2
  · norm_num
  · norm_num
  · have hd : levenshteinDistance (normalizeTitle a) (normalizeTitle b)
        ≤ max (normalizeTitle a).length (normalizeTitle b).length :=
      levenshteinDistance_le _ _
    have hm : 0 < max (normalizeTitle a).length (normalizeTitle b).length :=
      Nat.pos_of_ne_zero h2
    have hmq : (0 : ℚ) < ((max (normalizeTitle a).length (normalizeTitle b).length : Nat) : ℚ) := by
      exact_mod_cast hm
    have hdq : ((levenshteinDistance (normalizeTitle a) (normalizeTitle b) : Nat) : ℚ) ≤
        ((max (normalizeTitle a).length (normalizeTitle b).length : Nat) : ℚ) := by
      exact_mod_cast hd
    have hratio1 : ((levenshteinDistance (normalizeTitle a) (normalizeTitle b) : Nat) : ℚ) /
        ((max (normalizeTitle a).length (normalizeTitle b).length : Nat) : ℚ) ≤ 1 := by
      rw [div_le_one hmq]
      exact hdq
    have hratio0 : (0 : ℚ) ≤ ((levenshteinDistance (normalizeTitle a) (normalizeTitle b) : Nat) : ℚ) /
        ((max (normalizeTitle a).length (normalizeTitle b).length : Nat) : ℚ) := by positivity
    constructor <;> linarith

theorem keywordOverlap_mem (a b : String) :
    0 ≤ keywordOverlap a b ∧ keywordOverlap a b ≤ 1 := by
  unfold keywordOverlap
  dsimp only
  split_ifs with h
  · norm_num
  · push_neg at h
    obtain ⟨ha, hb⟩ := h
    have hmin : 0 < min (extractKeywords a).toFinset.card (extractKeywords b).toFinset.card :=
      lt_min (Nat.pos_of_ne_zero ha) (Nat.pos_of_ne_zero hb)
    have hminq : (0 : ℚ) <
        (min (extractKeywords a).toFinset.card (extractKeywords b).toFinset.card : ℚ) := by
      exact_mod_cast hmin
    have hsub : ((extractKeywords a).toFinset ∩ (extractKeywords b).toFinset).card
        ≤ min (extractKeywords a).toFinset.card (extractKeywords b).toFinset.card :=
      le_min (Finset.card_le_card Finset.inter_subset_left)
        (Finset.card_le_card Finset.inter_subset_right)
    constructor
    · positivity
    · rw [div_le_one hminq]
      exact_mod_cast hsub

/-- C7: the Levenshtein distance never exceeds the longer string length,
calculateSimilarity and keywordOverlap always lie in [0,1], and therefore
the 0.5/0.2/0.2/0.1-weighted match confidence lies in [0,1] for every two
markets. -/
theorem c7_confidence_in_unit_interval (m1 m2 : Market) (a b : String) :
    levenshteinDistance a b ≤ max a.length b.length ∧
    (0 ≤ calculateSimilarity a b ∧ calculateSimilarity a b ≤ 1) ∧
    (0 ≤ keywordOverlap a b ∧ keywordOverlap a b ≤ 1) ∧
    (0 ≤ matchConfidence m1 m2 ∧ matchConfidence m1 m2 ≤ 1) := by
  refine ⟨levenshteinDistance_le a b, calculateSimilarity_mem a b, keywordOverlap_mem a b, ?_⟩
  have hs := calculateSimilarity_mem m1.title m2.title
  have hk := keywordOverlap_mem m1.title m2.title
  have hdate : 0 ≤ (if datesMatch m1.endDate m2.endDate then (2/10 : ℚ) else 0) ∧
      (if datesMatch m1.endDate m2.endDate then (2/10 : ℚ) else 0) ≤ 2/10 := by
    split_ifs <;> norm_num
  have hcat : 0 ≤ categoryBonus m1.category m2.category ∧
      categoryBonus m1.category m2.category ≤ 1/10 := by
    unfold categoryBonus
    cases m1.category <;> cases m2.category <;> simp <;> split_ifs <;> norm_num
  unfold matchConfidence
  constructor <;> linarith [hs.1, hs.2, hk.1, hk.2, hdate.1, hdate.2, hcat.1, hcat.2]

/- C3: counterexample and amended statement. -/

/-- C3 counterexample: both titles are the stop word "the" (no extractable
keyword), end dates and nonempty categories agree, yet the confidence is
0.8, not 1; the pair is still matched, at confidence 0.8. -/
theorem c3_counterexample :
    exThe1.title = exThe2.title ∧
    datesMatch exThe1.endDate exThe2.endDate = true ∧
    exThe1.category = some "x" ∧ exThe2.category = some "x" ∧
    matchConfidence exThe1 exThe2 = 8/10 ∧
    matchConfidence exThe1 exThe2 ≠ 1 ∧
    (matchMarkets [exThe1] [exThe2]).map (fun p => p.matchConfidence) = [8/10] := by
  decide

theorem similarity_of_eq_titles (a : String) : calculateSimilarity a a = 1 := by
  unfold calculateSimilarity
  dsimp only
  rw [if_pos rfl]

theorem keywordOverlap_of_eq_titles (a : String) (hkw : extractKeywords a ≠ []) :
    keywordOverlap a a = 1 := by
  unfold keywordOverlap
  dsimp only
  have hcard : (extractKeywords a).toFinset.card ≠ 0 := by
    intro h0
    exact hkw ((List.toFinset_eq_empty_iff _).mp (Finset.card_eq_zero.mp h0))
  rw [if_neg (by push_neg; exact ⟨hcard, hcard⟩)]
  rw [Finset.inter_self, min_self]
  exact div_self (by exact_mod_cast hcard)

/-- C3 amended: identical titles that contain at least one keyword token,
matching end dates, and nonempty categories equal case-insensitively give
confidence exactly 1, and matchMarkets on the singleton lists returns
exactly this pair, at confidence 1, labelled an exact title match.  (The
keyword-bearing-title condition is forced by the counterexample; the
nonempty-category condition is forced because the code treats an empty
string category as absent.) -/
theorem c3_amended (m1 m2 : Market) (c1 c2 : String)
    (htitle : m1.title = m2.title)
    (hkw : extractKeywords m1.title ≠ [])
    (hdate : datesMatch m1.endDate m2.endDate = true)
    (hc1 : m1.category = some c1) (hc2 : m2.category = some c2)
    (hc1ne : c1 ≠ "") (hc2ne : c2 ≠ "")
    (hceq : toLowerStr c1 = toLowerStr c2) :
    matchConfidence m1 m2 = 1 ∧
    matchMarkets [m1] [m2] =
      [{ kalshi := some m1, polymarket := some m2, matchConfidence := 1,
         matchReason := "Exact title match" }] := by
  have hsim : calculateSimilarity m1.title m2.title = 1 := by
    rw [htitle]
    exact similarity_of_eq_titles m2.title
  have hko : keywordOverlap m1.title m2.title = 1 := by
    rw [htitle]
    exact keywordOverlap_of_eq_titles m2.title (htitle ▸ hkw)
  have hcat : categoryBonus m1.category m2.category = 1/10 := by
    rw [hc1, hc2]
    simp only [categoryBonus]
    rw [if_pos ⟨hc1ne, hc2ne, hceq⟩]
  have hconf : matchConfidence m1 m2 = 1 := by
    unfold matchConfidence
    rw [hsim, hko, hcat, if_pos hdate]
    norm_num
  refine ⟨hconf, ?_⟩
  have hbc : bestCandidate m1 [] [m2] =
      some ⟨m1, m2, 1, "Exact title match"⟩ := by
    unfold bestCandidate
    simp only [List.foldl]
    unfold considerPoly
    rw [if_neg (by simp)]
    dsimp only
    rw [hconf]
    rw [if_pos (by norm_num : (1 : ℚ) > 6/10)]
    rw [hsim]
    unfold matchReason
    rw [if_pos (by norm_num : (1 : ℚ) > 9/10)]
  unfold matchMarkets
  unfold matchLoop
  rw [hbc]
  unfold matchLoop
  unfold sortDescBy
  simp only [List.foldr]
  unfold insertDescBy
  simp [mkPair]

/-- Witness for the amended C3 at concrete markets with keyword-bearing
identical titles, equal dates and case-insensitively equal categories. -/
theorem c3_amended_witness :
    matchConfidence exAbc1 exAbc2 = 1 ∧
    matchMarkets [exAbc1] [exAbc2] =
      [{ kalshi := some exAbc1, polymarket := some exAbc2, matchConfidence := 1,
         matchReason := "Exact title match" }] :=
  c3_amended exAbc1 exAbc2 "X" "x" rfl (by decide) (by decide) rfl rfl
    (by decide) (by decide) (by decide)

/- C6: the matcher as a one-to-one mapping. -/

theorem insertDescBy_perm (key : α → ℚ) (a : α) (l : List α) :
    insertDescBy key a l ~ a :: l := by
  induction l with
  | nil => exact List.Perm.refl _
  | cons x xs ih =>
    unfold insertDescBy
    split_ifs
    · exact List.Perm.refl _
    · exact (ih.cons x).trans (List.Perm.swap a x xs)

theorem sortDescBy_perm (key : α → ℚ) (l : List α) : sortDescBy key l ~ l := by
  induction l with
  | nil => exact List.Perm.refl _
  | cons x xs ih =>
    unfold sortDescBy
    simp only [List.foldr]
    exact (insertDescBy_perm key x _).trans (ih.cons x)

/-- Every candidate the inner loop returns pairs the current kalshi market
with a polymarket market whose id is not yet claimed. -/
theorem bestCandidate_spec (kalshi : Market) (claimed : List String) (polys : List Market) :
    ∀ bm, bestCandidate kalshi claimed polys = some bm →
      bm.kalshiMarket = kalshi ∧ ¬ claimed.contains bm.polymarketMarket.id := by
  unfold bestCandidate
  suffices h : ∀ (ps : List Market) (acc : Option MatchResult),
      (∀ b, acc = some b → b.kalshiMarket = kalshi ∧ ¬ claimed.contains b.polymarketMarket.id) →
      ∀ bm, ps.foldl (considerPoly kalshi claimed) acc = some bm →
        bm.kalshiMarket = kalshi ∧ ¬ claimed.contains bm.polymarketMarket.id by
    exact h polys none (by intro b hb; cases hb)
  intro ps
  induction ps with
  | nil =>
    intro acc hacc bm h
    exact hacc bm h
  | cons p ps ih =>
    intro acc hacc bm h
    simp only [List.foldl] at h
    refine ih (considerPoly kalshi claimed acc p) ?_ bm h
    intro b hb
    unfold considerPoly at hb
    split_ifs at hb with hclaim
    · exact hacc b hb
    · cases acc with
      | none =>
        dsimp only at hb
        split_ifs at hb
        injection hb with hb2
        subst hb2
        exact ⟨rfl, hclaim⟩
      | some b0 =>
        dsimp only at hb
        split_ifs at hb
        · injection hb with hb2
          subst hb2
          exact ⟨rfl, hclaim⟩
        · injection hb with hb2
          subst hb2
          exact hacc b0 rfl

theorem pairPolyIds_append (pairs1 pairs2 : List MarketPair) :
    pairPolyIds (pairs1 ++ pairs2) = pairPolyIds pairs1 ++ pairPolyIds pairs2 :=
  List.filterMap_append _ _ _

theorem pairKalshiIds_append (pairs1 pairs2 : List MarketPair) :
    pairKalshiIds (pairs1 ++ pairs2) = pairKalshiIds pairs1 ++ pairKalshiIds pairs2 :=
  List.filterMap_append _ _ _

theorem matchLoop_polyIds_nodup (polys : List Market) :
    ∀ (ks : List Market) (claimed : List String) (pairs : List MarketPair),
      (pairPolyIds pairs).Nodup →
      (∀ s ∈ pairPolyIds pairs, s ∈ claimed) →
      (pairPolyIds (matchLoop polys ks claimed pairs)).Nodup := by
  intro ks
  induction ks with
  | nil =>
    intro claimed pairs h1 h2
    simpa [matchLoop] using h1
  | cons k ks ih =>
    intro claimed pairs h1 h2
    simp only [matchLoop]
    cases hbc : bestCandidate k claimed polys with
    | none => exact ih claimed pairs h1 h2
    | some bm =>
      have hid : ¬ claimed.contains bm.polymarketMarket.id :=
        (bestCandidate_spec k claimed polys bm hbc).2
      have hidmem : bm.polymarketMarket.id ∉ claimed := by
        intro hmem
        exact hid (List.elem_eq_true_of_mem hmem)
      have hone : pairPolyIds [mkPair bm] = [bm.polymarketMarket.id] := by
        simp [pairPolyIds, mkPair]
      apply ih
      · rw [pairPolyIds_append, hone]
        rw [List.nodup_append]
        refine ⟨h1, List.nodup_singleton _, ?_⟩
        intro s hs hs2
        have : s = bm.polymarketMarket.id := by simpa using hs2
        subst this
        exact hidmem (h2 _ hs)
      · intro s hs
        rw [pairPolyIds_append, hone] at hs
        rcases List.mem_append.mp hs with hs | hs
        · exact List.mem_cons_of_mem _ (h2 _ hs)
        · have : s = bm.polymarketMarket.id := by simpa using hs
          subst this
          exact List.mem_cons_self _ _

theorem matchLoop_kalshiIds_sublist (polys : List Market) :
    ∀ (ks : List Market) (claimed : List String) (pairs : List MarketPair),
      ∃ l, pairKalshiIds (matchLoop polys ks claimed pairs) = pairKalshiIds pairs ++ l ∧
        l <+ ks.map Market.id := by
  intro ks
  induction ks with
  | nil =>
    intro claimed pairs
    exact ⟨[], by simp [matchLoop], by simp⟩
  | cons k ks ih =>
    intro claimed pairs
    simp only [matchLoop]
    cases hbc : bestCandidate k claimed polys with
    | none =>
      obtain ⟨l, hl, hsub⟩ := ih claimed pairs
      exact ⟨l, hl, hsub.cons k.id⟩
    | some bm =>
      obtain ⟨l, hl, hsub⟩ := ih (bm.polymarketMarket.id :: claimed) (pairs ++ [mkPair bm])
      have hk : bm.kalshiMarket = k := (bestCandidate_spec k claimed polys bm hbc).1
      refine ⟨k.id :: l, ?_, hsub.cons₂ k.id⟩
      rw [hl, pairKalshiIds_append]
      have hone : pairKalshiIds [mkPair bm] = [k.id] := by
        simp [pairKalshiIds, mkPair, hk]
      rw [hone, List.append_assoc]
      rfl

/-- C6 counterexample: a kalshi input list that repeats one id produces two
returned pairs carrying that id, so the ids of the returned pairs are not
one-to-one for arbitrary inputs. -/
theorem c6_counterexample :
    pairKalshiIds (matchMarkets [exDupK1, exDupK2] [exPA, exPB]) = ["k", "k"] ∧
    ¬ (pairKalshiIds (matchMarkets [exDupK1, exDupK2] [exPA, exPB])).Nodup := by
  decide

/-- C6 amended: when the kalshi input list has pairwise distinct ids, no
kalshi id appears in two returned pairs, and no polymarket id ever appears
in two returned pairs (the claimed-set makes the polymarket side
unconditional). -/
theorem c6_one_to_one (kalshiMarkets polymarketMarkets : List Market)
    (h : (kalshiMarkets.map Market.id).Nodup) :
    (pairKalshiIds (matchMarkets kalshiMarkets polymarketMarkets)).Nodup ∧
    (pairPolyIds (matchMarkets kalshiMarkets polymarketMarkets)).Nodup := by
  constructor
  · unfold matchMarkets
    have hperm := (sortDescBy_perm (fun p : MarketPair => p.matchConfidence)
      (matchLoop polymarketMarkets kalshiMarkets [] [])).filterMap
      (fun p => p.kalshi.map Market.id)
    unfold pairKalshiIds
    rw [List.Perm.nodup_iff hperm]
    obtain ⟨l, hl, hsub⟩ := matchLoop_kalshiIds_sublist polymarketMarkets kalshiMarkets [] []
    show (pairKalshiIds (matchLoop polymarketMarkets kalshiMarkets [] [])).Nodup
    rw [hl]
    simpa [pairKalshiIds] using hsub.nodup h
  · unfold matchMarkets
    have hperm := (sortDescBy_perm (fun p : MarketPair => p.matchConfidence)
      (matchLoop polymarketMarkets kalshiMarkets [] [])).filterMap
      (fun p => p.polymarket.map Market.id)
    unfold pairPolyIds
    rw [List.Perm.nodup_iff hperm]
    exact matchLoop_polyIds_nodup polymarketMarkets kalshiMarkets [] []
      (by simp [pairPolyIds]) (by simp [pairPolyIds])

/-- Witness for the amended C6 on a concrete three-market input. -/
theorem c6_one_to_one_witness :
    (pairKalshiIds (matchMarkets [exK1, exK3] [exP1])).Nodup ∧
    (pairPolyIds (matchMarkets [exK1, exK3] [exP1])).Nodup :=
  c6_one_to_one [exK1, exK3] [exP1] (by decide)

/- C1: selection of the best overall opportunity. -/

/-- C1 counterexample: both result lists are non-empty and their heads tie
at profitMargin 20, yet bestOpportunity is the intra-market head, not the
cross-market head: the strict greater-than comparison resolves ties toward
the intra-market side. -/
theorem c1_counterexample :
    (detect tieConfig [exK1, exK3] [exP1] 0).crossMarket = [exCrossOpp] ∧
    (detect tieConfig [exK1, exK3] [exP1] 0).intraMarket = [exIntraOpp] ∧
    exCrossOpp.profitMargin = 20 ∧
    exIntraOpp.profitMargin = 20 ∧
    (detect tieConfig [exK1, exK3] [exP1] 0).bestOpportunity ≠ some (Sum.inl exCrossOpp) ∧
    (detect tieConfig [exK1, exK3] [exP1] 0).bestOpportunity = some (Sum.inr exIntraOpp) := by
  decide

/-- C1 amended: bestOpportunity is none when both sorted lists are empty,
the head of the only non-empty list when exactly one is non-empty, and
with both non-empty it is the cross head exactly when its margin strictly
exceeds the intra head margin, the intra head otherwise — so ties go to
the intra-market head. -/
theorem c1_best_selection (config : DetectorConfig)
    (kalshiMarkets polymarketMarkets : List Market) (now : Int) :
    ((detect config kalshiMarkets polymarketMarkets now).crossMarket = [] →
      (detect config kalshiMarkets polymarketMarkets now).intraMarket = [] →
      (detect config kalshiMarkets polymarketMarkets now).bestOpportunity = none) ∧
    (∀ c cs, (detect config kalshiMarkets polymarketMarkets now).crossMarket = c :: cs →
      (detect config kalshiMarkets polymarketMarkets now).intraMarket = [] →
      (detect config kalshiMarkets polymarketMarkets now).bestOpportunity = some (Sum.inl c)) ∧
    (∀ i is, (detect config kalshiMarkets polymarketMarkets now).intraMarket = i :: is →
      (detect config kalshiMarkets polymarketMarkets now).crossMarket = [] →
      (detect config kalshiMarkets polymarketMarkets now).bestOpportunity = some (Sum.inr i)) ∧
    (∀ c cs i is, (detect config kalshiMarkets polymarketMarkets now).crossMarket = c :: cs →
      (detect config kalshiMarkets polymarketMarkets now).intraMarket = i :: is →
      (detect config kalshiMarkets polymarketMarkets now).bestOpportunity =
        if i.profitMargin < c.profitMargin then some (Sum.inl c) else some (Sum.inr i)) := by
  unfold detect
  dsimp only
  refine ⟨?_, ?_, ?_, ?_⟩
  · intro h1 h2
    rw [h1, h2]
  · intro c cs h1 h2
    rw [h1, h2]
  · intro i is h1 h2
    rw [h2, h1]
  · intro c cs i is h1 h2
    rw [h1, h2]

/-- Witness for the amended C1 on the concrete tie: the selection formula
yields the intra head. -/
theorem c1_best_selection_witness :
    (detect tieConfig [exK1, exK3] [exP1] 0).bestOpportunity =
      if exIntraOpp.profitMargin < exCrossOpp.profitMargin
      then some (Sum.inl exCrossOpp) else some (Sum.inr exIntraOpp) :=
  (c1_best_selection tieConfig [exK1, exK3] [exP1] 0).2.2.2 exCrossOpp [] exIntraOpp []
    (by decide) (by decide)

/- C9: detect depends on nothing but its inputs, the config and the
ambient clock reading, and the clock only reaches the detectedAt
timestamps. -/

theorem scrubCross_profitMargin (o : ArbitrageOpportunity) :
    (scrubCross o).profitMargin = o.profitMargin := rfl

theorem scrubIntra_profitMargin (o : IntraMarketOpportunity) :
    (scrubIntra o).profitMargin = o.profitMargin := rfl

theorem calcCross_scrub (pair : MarketPair) (fees : FeeStructure) (t1 t2 : Int) :
    (calculateCrossMarketArbitrage pair fees t1).map scrubCross =
      (calculateCrossMarketArbitrage pair fees t2).map scrubCross := by
  unfold calculateCrossMarketArbitrage
  cases pair.kalshi with
  | none => rfl
  | some kalshi =>
    cases pair.polymarket with
    | none => rfl
    | some polymarket =>
      dsimp only
      split_ifs <;> simp [scrubCross] <;> split_ifs <;> simp [scrubCross]

theorem calcIntra_scrub (market : Market) (fees : FeeStructure) (t1 t2 : Int) :
    (calculateIntraMarketArbitrage market fees t1).map scrubIntra =
      (calculateIntraMarketArbitrage market fees t2).map scrubIntra := by
  unfold calculateIntraMarketArbitrage
  dsimp only
  split_ifs <;> simp [scrubIntra]

theorem filterMap_map_congr (f g : α → Option β) (s : β → β)
    (h : ∀ a, (f a).map s = (g a).map s) (l : List α) :
    (l.filterMap f).map s = (l.filterMap g).map s := by
  induction l with
  | nil => rfl
  | cons a l ih =>
    rw [List.filterMap_cons, List.filterMap_cons]
    cases hfa : f a with
    | none =>
      have hga : g a = none := by
        have h2 := h a
        rw [hfa] at h2
        exact Option.map_eq_none'.mp h2.symm
      rw [hga]
      exact ih
    | some b =>
      have h2 := h a
      rw [hfa] at h2
      cases hga : g a with
      | none =>
        rw [hga] at h2
        cases h2
      | some b2 =>
        rw [hga] at h2
        simp only [Option.map_some'] at h2
        simp only [List.map_cons]
        rw [Option.some.inj h2, ih]

theorem map_filter_congr (s : β → β) (p : β → Bool) (hp : ∀ b, p (s b) = p b) :
    ∀ l1 l2 : List β, l1.map s = l2.map s →
      (l1.filter p).map s = (l2.filter p).map s := by
  intro l1
  induction l1 with
  | nil =>
    intro l2 h
    cases l2 with
    | nil => rfl
    | cons b l2 => simp at h
  | cons a l ih =>
    intro l2 h
    cases l2 with
    | nil => simp at h
    | cons b l2 =>
      simp only [List.map_cons, List.cons.injEq] at h
      obtain ⟨hab, htl⟩ := h
      rw [List.filter_cons, List.filter_cons]
      have hpab : p a = p b := by rw [← hp a, hab, hp b]
      rw [← hpab]
      by_cases hpa : p a = true
      · rw [if_pos hpa, if_pos hpa]
        simp only [List.map_cons]
        rw [hab, ih l2 htl]
      · rw [if_neg hpa, if_neg hpa]
        exact ih l2 htl

theorem map_insertDescBy (s : β → β) (key : β → ℚ) (hkey : ∀ b, key (s b) = key b)
    (a1 a2 : β) (ha : s a1 = s a2) :
    ∀ l1 l2 : List β, l1.map s = l2.map s →
      (insertDescBy key a1 l1).map s = (insertDescBy key a2 l2).map s := by
  have hka : key a1 = key a2 := by rw [← hkey a1, ha, hkey a2]
  intro l1
  induction l1 with
  | nil =>
    intro l2 h
    cases l2 with
    | nil => simp [insertDescBy, ha]
    | cons b l2 => simp at h
  | cons x l ih =>
    intro l2 h
    cases l2 with
    | nil => simp at h
    | cons y l2 =>
      simp only [List.map_cons, List.cons.injEq] at h
      obtain ⟨hxy, htl⟩ := h
      have hk : key x = key y := by rw [← hkey x, hxy, hkey y]
      unfold insertDescBy
      by_cases hc : key y ≤ key a2
      · rw [if_pos (by rw [hk, hka]; exact hc), if_pos hc]
        simp [ha, hxy, htl]
      · rw [if_neg (by rw [hk, hka]; exact hc), if_neg hc]
        simp only [List.map_cons]
        rw [hxy, ih l2 htl]

theorem map_sortDescBy (s : β → β) (key : β → ℚ) (hkey : ∀ b, key (s b) = key b) :
    ∀ l1 l2 : List β, l1.map s = l2.map s →
      (sortDescBy key l1).map s = (sortDescBy key l2).map s := by
  intro l1
  induction l1 with
  | nil =>
    intro l2 h
    cases l2 with
    | nil => rfl
    | cons b l2 => simp at h
  | cons x l ih =>
    intro l2 h
    cases l2 with
    | nil => simp at h
    | cons y l2 =>
      simp only [List.map_cons, List.cons.injEq] at h
      obtain ⟨hxy, htl⟩ := h
      unfold sortDescBy
      simp only [List.foldr]
      exact map_insertDescBy s key hkey x y hxy _ _ (ih l2 htl)

theorem bestOf_scrub (sc1 sc2 : List ArbitrageOpportunity)
    (im1 im2 : List IntraMarketOpportunity)
    (hsc : sc1.map scrubCross = sc2.map scrubCross)
    (him : im1.map scrubIntra = im2.map scrubIntra) :
    (match sc1, im1 with
      | c :: _, i :: _ =>
        if c.profitMargin > i.profitMargin then some (Sum.inl c) else some (Sum.inr i)
      | c :: _, [] => some (Sum.inl c)
      | [], i :: _ => some (Sum.inr i)
      | [], [] =>
        (none : Option (Sum ArbitrageOpportunity IntraMarketOpportunity))).map scrubBest =
    (match sc2, im2 with
      | c :: _, i :: _ =>
        if c.profitMargin > i.profitMargin then some (Sum.inl c) else some (Sum.inr i)
      | c :: _, [] => some (Sum.inl c)
      | [], i :: _ => some (Sum.inr i)
      | [], [] =>
        (none : Option (Sum ArbitrageOpportunity IntraMarketOpportunity))).map scrubBest := by
  cases sc1 with
  | nil =>
    cases sc2 with
    | nil =>
      cases im1 with
      | nil =>
        cases im2 with
        | nil => rfl
        | cons i2 is2 => simp at him
      | cons i1 is1 =>
        cases im2 with
        | nil => simp at him
        | cons i2 is2 =>
          simp only [List.map_cons, List.cons.injEq] at him
          simp [scrubBest, him.1]
    | cons c2 cs2 => simp at hsc
  | cons c1 cs1 =>
    cases sc2 with
    | nil => simp at hsc
    | cons c2 cs2 =>
      simp only [List.map_cons, List.cons.injEq] at hsc
      obtain ⟨hc, _⟩ := hsc
      have hcm : c1.profitMargin = c2.profitMargin := by
        rw [← scrubCross_profitMargin c1, hc, scrubCross_profitMargin]
      cases im1 with
      | nil =>
        cases im2 with
        | nil => simp [scrubBest, hc]
        | cons i2 is2 => simp at him
      | cons i1 is1 =>
        cases im2 with
        | nil => simp at him
        | cons i2 is2 =>
          simp only [List.map_cons, List.cons.injEq] at him
          obtain ⟨hi, _⟩ := him
          have him2 : i1.profitMargin = i2.profitMargin := by
            rw [← scrubIntra_profitMargin i1, hi, scrubIntra_profitMargin]
          dsimp only
          rw [hcm, him2]
          split_ifs <;> simp [scrubBest, hc, hi]

/-- C9 counterexample: two detect calls on the same lists and config but at
different instants differ, because the results carry the wall-clock
detectedAt stamp. -/
theorem c9_counterexample :
    detect DEFAULT_CONFIG [] [] 0 ≠ detect DEFAULT_CONFIG [] [] 1 := by
  decide

/-- C9 amended: the clock is the only hidden input of detect; after
erasing detectedAt stamps, two calls with the same lists and config give
identical results whatever instants they run at (and calls at the same
instant are identical outright). -/
theorem c9_detect_deterministic (config : DetectorConfig)
    (kalshiMarkets polymarketMarkets : List Market) (t1 t2 : Int) :
    scrubResult (detect config kalshiMarkets polymarketMarkets t1) =
      scrubResult (detect config kalshiMarkets polymarketMarkets t2) := by
  have hcross :
      ((((matchMarkets kalshiMarkets polymarketMarkets).filter
            (fun pair => pair.matchConfidence ≥ config.minConfidence)).filterMap
          (fun pair => calculateCrossMarketArbitrage pair config.fees t1)).filter
            (fun opp => opp.profitMargin ≥ config.minProfitMargin)).map scrubCross =
      ((((matchMarkets kalshiMarkets polymarketMarkets).filter
            (fun pair => pair.matchConfidence ≥ config.minConfidence)).filterMap
          (fun pair => calculateCrossMarketArbitrage pair config.fees t2)).filter
            (fun opp => opp.profitMargin ≥ config.minProfitMargin)).map scrubCross := by
    apply map_filter_congr
    · intro o
      rfl
    · exact filterMap_map_congr _ _ scrubCross
        (fun pair => calcCross_scrub pair config.fees t1 t2) _
  have hintra : ∀ markets : List Market,
      ((markets.filterMap
          (fun market => calculateIntraMarketArbitrage market config.fees t1)).filter
            (fun opp => opp.profitMargin ≥ config.minProfitMargin)).map scrubIntra =
      ((markets.filterMap
          (fun market => calculateIntraMarketArbitrage market config.fees t2)).filter
            (fun opp => opp.profitMargin ≥ config.minProfitMargin)).map scrubIntra := by
    intro markets
    apply map_filter_congr
    · intro o
      rfl
    · exact filterMap_map_congr _ _ scrubIntra
        (fun market => calcIntra_scrub market config.fees t1 t2) _
  have hintra2 :
      ((kalshiMarkets.filterMap
            (fun market => calculateIntraMarketArbitrage market config.fees t1)).filter
              (fun opp => opp.profitMargin ≥ config.minProfitMargin) ++
        (polymarketMarkets.filterMap
            (fun market => calculateIntraMarketArbitrage market config.fees t1)).filter
              (fun opp => opp.profitMargin ≥ config.minProfitMargin)).map scrubIntra =
      ((kalshiMarkets.filterMap
            (fun market => calculateIntraMarketArbitrage market config.fees t2)).filter
              (fun opp => opp.profitMargin ≥ config.minProfitMargin) ++
        (polymarketMarkets.filterMap
            (fun market => calculateIntraMarketArbitrage market config.fees t2)).filter
              (fun opp => opp.profitMargin ≥ config.minProfitMargin)).map scrubIntra := by
    rw [List.map_append, List.map_append, hintra kalshiMarkets, hintra polymarketMarkets]
  have hsc := map_sortDescBy scrubCross (fun o => o.profitMargin) (fun o => rfl) _ _ hcross
  have him := map_sortDescBy scrubIntra (fun o => o.profitMargin) (fun o => rfl) _ _ hintra2
  have hlen1 := congrArg List.length hsc
  have hlen2 := congrArg List.length him
  rw [List.length_map, List.length_map] at hlen1
  rw [List.length_map, List.length_map] at hlen2
  unfold detect scrubResult sortByProfitMargin
  dsimp only
  simp only [DetectionResult.mk.injEq]
  refine ⟨hsc, him, ?_, ?_, trivial⟩
  · omega
  · exact bestOf_scrub _ _ _ _ hsc him

/- C8: the retry loop of DomeClient.fetch. -/

theorem fetchAttempts_sleeps_lt (jitterAt : Nat → Int) (baseDelayMs : Int) :
    ∀ (l : List (AttemptOutcome α)) (attempt : Nat), l ≠ [] →
      (fetchAttempts jitterAt baseDelayMs l attempt).sleeps.length < l.length := by
  intro l
  induction l with
  | nil => intro attempt h; exact absurd rfl h
  | cons o later ih =>
    intro attempt _
    have hretry : ∀ r : FetchRun α, r.sleeps.length < later.length →
        (FetchRun.mk (getBackoffDelay attempt baseDelayMs (jitterAt attempt) :: r.sleeps)
          r.outcome).sleeps.length < (o :: later).length := by
      intro r hr
      simp only [List.length_cons]
      omega
    have hne_of : ∀ b : Bool, (!later.isEmpty && b) = true → later ≠ [] := by
      intro b hb he
      subst he
      simp at hb
    unfold fetchAttempts
    cases o with
    | response ok status statusText bodyText payload =>
      dsimp only
      by_cases hok : ok = false
      · rw [if_pos hok]
        by_cases h1 : (!later.isEmpty && isRetryableStatus status) = true
        · rw [if_pos h1]
          exact hretry _ (ih (attempt + 1) (hne_of _ h1))
        · rw [if_neg h1]
          by_cases h2 :
              (!later.isEmpty && isRetryableError (statusError status statusText bodyText)) = true
          · rw [if_pos h2]
            exact hretry _ (ih (attempt + 1) (hne_of _ h2))
          · rw [if_neg h2]
            simp
      · rw [if_neg hok]
        simp
    | failure err =>
      dsimp only
      by_cases h1 : (!later.isEmpty && isRetryableError err) = true
      · rw [if_pos h1]
        exact hretry _ (ih (attempt + 1) (hne_of _ h1))
      · rw [if_neg h1]
        simp

theorem fetchAttempts_last_error (jitterAt : Nat → Int) (baseDelayMs : Int) :
    ∀ (l : List (AttemptOutcome α)) (attempt : Nat) (e : ErrorObj),
      (∀ o ∈ l, ∃ err, o = .failure err ∧ isRetryableError err = true) →
      l.getLast? = some (.failure e) →
      (fetchAttempts jitterAt baseDelayMs l attempt).outcome = .error e := by
  intro l
  induction l with
  | nil => intro attempt e _ hlast; cases hlast
  | cons o later ih =>
    intro attempt e hall hlast
    obtain ⟨err, ho, herr⟩ := hall o (List.mem_cons_self o later)
    subst ho
    unfold fetchAttempts
    dsimp only
    cases later with
    | nil =>
      rw [if_neg (by simp)]
      have : AttemptOutcome.failure (α := α) err = .failure e := by
        simpa using hlast
      cases this
      rfl
    | cons o2 later2 =>
      rw [if_pos (by simp [herr])]
      have hlast2 : (o2 :: later2).getLast? = some (.failure e) := by
        rwa [List.getLast?_cons_cons] at hlast
      rw [ih (attempt + 1) e (fun o ho => hall o (List.mem_cons_of_mem _ ho)) hlast2]

/-- C8, corrected: a response with status 408, 429 or at least 500 is
retried with one backoff sleep while attempts remain; a non-success status
outside that set is surfaced immediately with no retry and no sleep,
provided the composed error message carries no transport-retry keyword; a
nonempty attempt budget of n entries (retryAttempts + 1 in the client)
never performs more than n attempts (at most n - 1 sleeps); and when every
allowed attempt fails with a retryable error the last observed error is
surfaced. -/
theorem c8_retry_policy (jitterAt : Nat → Int) (baseDelayMs : Int)
    (status : Nat) (statusText bodyText : String) (payload : String)
    (later : List (AttemptOutcome String)) (attempt : Nat)
    (l : List (AttemptOutcome String)) (e : ErrorObj) :
    (isRetryableStatus status = true → later ≠ [] →
      fetchAttempts jitterAt baseDelayMs
          (.response false status statusText bodyText payload :: later) attempt =
        { sleeps := getBackoffDelay attempt baseDelayMs (jitterAt attempt) ::
            (fetchAttempts jitterAt baseDelayMs later (attempt + 1)).sleeps,
          outcome := (fetchAttempts jitterAt baseDelayMs later (attempt + 1)).outcome }) ∧
    (isRetryableStatus status = false →
      isRetryableError (statusError status statusText bodyText) = false →
      fetchAttempts jitterAt baseDelayMs
          (.response false status statusText bodyText payload :: later) attempt =
        { sleeps := [], outcome := .error (statusError status statusText bodyText) }) ∧
    (l ≠ [] →
      (domeFetch jitterAt baseDelayMs l).sleeps.length + 1 ≤ l.length) ∧
    ((∀ o ∈ l, ∃ err, o = .failure err ∧ isRetryableError err = true) →
      l.getLast? = some (.failure e) →
      (domeFetch jitterAt baseDelayMs l).outcome = .error e) := by
  refine ⟨?_, ?_, ?_, ?_⟩
  · intro hst hne
    conv_lhs => rw [fetchAttempts]
    dsimp only
    rw [if_pos rfl, if_pos (by simp [hst, hne])]
  · intro hst herr
    conv_lhs => rw [fetchAttempts]
    dsimp only
    rw [if_pos rfl, if_neg (by simp [hst]), if_neg (by simp [herr])]
  · intro hne
    have := fetchAttempts_sleeps_lt jitterAt baseDelayMs l 0 hne
    unfold domeFetch
    omega
  · intro hall hlast
    exact fetchAttempts_last_error jitterAt baseDelayMs l 0 e hall hlast

/-- C8 counterexample: a 404 — not a retryable status — whose body text
contains the word timeout is retried after a backoff sleep, because the
thrown status Error is caught by the surrounding catch and re-classified
as a retryable transport error; the call then succeeds on the next
attempt instead of surfacing the 404. -/
theorem c8_counterexample :
    isRetryableStatus 404 = false ∧
    domeFetch zeroJitter 500 exC8Attempts =
      { sleeps := [500], outcome := .ok "PAYLOAD" } := by
  decide

/-- Witness for C8: a clean 404 surfaces immediately with no sleep, and a
budget of three attempts that all fail with retryable transport errors
surfaces the error of the third attempt. -/
theorem c8_retry_policy_witness :
    fetchAttempts zeroJitter 500
        (.response false 404 "Not Found" "gone" "IGNORED" ::
          [.response true 200 "OK" "" "PAYLOAD"]) 0 =
      { sleeps := [], outcome := .error (statusError 404 "Not Found" "gone") } ∧
    (domeFetch zeroJitter 500
        ([.failure { name := "Error", message := "connect ECONNRESET a" },
          .failure { name := "Error", message := "connect ECONNRESET b" },
          .failure { name := "Error", message := "connect ECONNRESET c" }] :
            List (AttemptOutcome String))).outcome =
      .error { name := "Error", message := "connect ECONNRESET c" } :=
  ⟨(c8_retry_policy zeroJitter 500 404 "Not Found" "gone" "IGNORED"
      [.response true 200 "OK" "" "PAYLOAD"] 0 [] { name := "", message := "" }).2.1
        (by decide) (by decide),
   (c8_retry_policy zeroJitter 500 0 "" "" ""  []  0
      [.failure { name := "Error", message := "connect ECONNRESET a" },
       .failure { name := "Error", message := "connect ECONNRESET b" },
       .failure { name := "Error", message := "connect ECONNRESET c" }]
      { name := "Error", message := "connect ECONNRESET c" }).2.2.2
        (by
          intro o ho
          rcases List.mem_cons.mp ho with rfl | ho
          · exact ⟨_, rfl, by decide⟩
          rcases List.mem_cons.mp ho with rfl | ho
          · exact ⟨_, rfl, by decide⟩
          rcases List.mem_cons.mp ho with rfl | ho
          · exact ⟨_, rfl, by decide⟩
          · cases ho)
        (by decide)⟩

/- C10: freshness classification of the markets cache. -/

/-- C10: a platform with no cache entry is reported stale with infinite
age (modelled as none) and source db; an existing entry is classified api
below age 1000 ms, cache below the configured markets TTL, and db
otherwise, while its staleness uses the ttl stored in the entry. -/
theorem c10_markets_freshness (config : CacheConfig)
    (marketsCache : String → Option CacheEntryM) (now : Int) (platform : String) :
    (marketsCache platform = none →
      getMarketsFreshness config marketsCache now platform =
        { isStale := true, ageMs := none, source := .db }) ∧
    (∀ entry, marketsCache platform = some entry →
      getMarketsFreshness config marketsCache now platform =
        { isStale := ! decide (now - entry.timestamp < entry.ttlMs),
          ageMs := some (now - entry.timestamp),
          source :=
            if now - entry.timestamp < 1000 then .api
            else if now - entry.timestamp < config.marketsTtlMs then .cache
            else .db }) := by
  constructor
  · intro h
    simp [getMarketsFreshness, getAge, ageLt, isValidEntry, h]
  · intro entry h
    simp only [getMarketsFreshness, getAge, ageLt, isValidEntry, h]
    split_ifs <;> simp_all
/-- Witness for C10: at now = 100, the platform with no entry reports
stale/none/db, and the platform with a fresh entry of age 100 reports
api. -/
theorem c10_markets_freshness_witness :
    getMarketsFreshness exCacheConfig exC2Env.marketsCache 100 "polymarket" =
      { isStale := true, ageMs := none, source := .db } ∧
    getMarketsFreshness exCacheConfig exC2Env.marketsCache 100 "kalshi" =
      { isStale := ! decide ((100 : Int) - exFreshEntry.timestamp < exFreshEntry.ttlMs),
        ageMs := some (100 - exFreshEntry.timestamp),
        source :=
          if (100 : Int) - exFreshEntry.timestamp < 1000 then .api
          else if (100 : Int) - exFreshEntry.timestamp < exCacheConfig.marketsTtlMs then .cache
          else .db } :=
  ⟨(c10_markets_freshness exCacheConfig exC2Env.marketsCache 100 "polymarket").1 (by decide),
   (c10_markets_freshness exCacheConfig exC2Env.marketsCache 100 "kalshi").2 exFreshEntry
     (by decide)⟩

/- C2: the fallback cascade. -/

/-- C2 counterexample: the kalshi live fetch fails while a fresh kalshi
cache entry exists and the polymarket live fetch succeeds, but the run
does not mark kalshi as cache-sourced: the error path consults only the
durable store, the kalshi markets stay at their previous value, and the
single dataSource tag ends up api (the last successful leg). -/
theorem c2_counterexample :
    getCachedMarkets exC2Env.marketsCache 100 "kalshi" = some [exCachedK] ∧
    exC2Env.liveKalshi = .error "boom" ∧
    exC2Env.livePoly = .ok [exLiveP] ∧
    (fetchAllMarkets false exC2Env 100 initialStore).dataSource = .api ∧
    (fetchAllMarkets false exC2Env 100 initialStore).dataSource ≠ .cache ∧
    (fetchAllMarkets false exC2Env 100 initialStore).kalshiMarkets = [] ∧
    (fetchAllMarkets false exC2Env 100 initialStore).kalshiMarkets ≠ [exCachedK] ∧
    (fetchAllMarkets false exC2Env 100 initialStore).error = none := by
  decide
/-- C2 amended: when the kalshi live fetch fails and the polymarket live
fetch succeeds (and the cache shortcut does not fire because polymarket
has no fresh entry), the refresh still reports success with no error, the
failed platform falls back to the durable store — never to its cache
entry — keeping its old markets when the store has none, and the single
dataSource tag reports api, the source of the last successful leg; there
is no per-platform provenance. -/
theorem c2_fallback_cascade (env : FetchEnv) (st : StoreState) (now : Int)
    (msg : String) (pm : List Market)
    (hload : st.loading = false)
    (hkal : env.liveKalshi = .error msg)
    (hpol : env.livePoly = .ok pm)
    (hnocache : getCachedMarkets env.marketsCache now "polymarket" = none) :
    (fetchAllMarkets false env now st).error = none ∧
    (fetchAllMarkets false env now st).domeConnected = true ∧
    (fetchAllMarkets false env now st).lastUpdated = some now ∧
    (fetchAllMarkets false env now st).kalshiConnected = false ∧
    (fetchAllMarkets false env now st).polymarketConnected = true ∧
    (fetchAllMarkets false env now st).polymarketMarkets = pm ∧
    (fetchAllMarkets false env now st).dataSource = .api ∧
    (fetchAllMarkets false env now st).kalshiMarkets =
      (if 0 < (loadMarketsFromDb env.dbAvailable env.dbKalshi).length
       then loadMarketsFromDb env.dbAvailable env.dbKalshi
       else st.kalshiMarkets) := by
  unfold fetchAllMarkets
  rw [hload]
  rw [if_neg (by simp)]
  dsimp only
  rw [if_neg (by simp)]
  cases hck : getCachedMarkets env.marketsCache now "kalshi" <;>
    rw [hnocache] <;>
    dsimp only <;>
    rw [hkal, hpol] <;>
    dsimp only <;>
    by_cases hdb : 0 < (loadMarketsFromDb env.dbAvailable env.dbKalshi).length <;>
    simp [hdb]

/-- Witness for the amended C2 at the concrete environment of the
counterexample. -/
theorem c2_fallback_cascade_witness :
    (fetchAllMarkets false exC2Env 100 initialStore).error = none ∧
    (fetchAllMarkets false exC2Env 100 initialStore).domeConnected = true ∧
    (fetchAllMarkets false exC2Env 100 initialStore).lastUpdated = some 100 ∧
    (fetchAllMarkets false exC2Env 100 initialStore).kalshiConnected = false ∧
    (fetchAllMarkets false exC2Env 100 initialStore).polymarketConnected = true ∧
    (fetchAllMarkets false exC2Env 100 initialStore).polymarketMarkets = [exLiveP] ∧
    (fetchAllMarkets false exC2Env 100 initialStore).dataSource = .api ∧
    (fetchAllMarkets false exC2Env 100 initialStore).kalshiMarkets =
      (if 0 < (loadMarketsFromDb exC2Env.dbAvailable exC2Env.dbKalshi).length
       then loadMarketsFromDb exC2Env.dbAvailable exC2Env.dbKalshi
       else initialStore.kalshiMarkets) :=
  c2_fallback_cascade exC2Env initialStore 100 "boom" [exLiveP] rfl rfl rfl (by decide)

end PredictionMarkets
